import Mathlib

/-!
Verification of the biotech-news-agent repository (src/biotech_agent.py):
a shallow embedding of the `BiotechNewsAgent` class and proofs about its
classifier, company-name extractor, aggregator, report writer and
orchestrator.

Modeling conventions:
* Python strings are Lean `String`; `len` is the number of characters
  (`s.data.length`), slicing `s[:n]` is `pySlice`, `.lower()` is `pyLower`
  (character-wise `Char.toLower`), substring containment (`in`) is
  `pyContains`, `str.split()` is `pySplit` (splits on whitespace runs,
  never yielding empty tokens), `sep.join` is `pyJoin`.
* The feedparser result is modelled by `Feed` / `Entry`; each entry field is
  optional, mirroring `entry.get(field, '')`.  Network access is an explicit
  environment `FetchEnv : String → Except String Feed`: `.error` models any
  exception raised while fetching/parsing (network error, malformed feed,
  timeout), which the Python code catches.
* `datetime.now()`-derived values are explicit parameters (`now` for the
  unused cutoff computation, `Clock` for the strings formatted into the
  report), since they do not affect any claim.
* The Excel side effect of `create_excel_report` is modelled by returning the
  document value (`Excel`) together with the filename; `run_monthly_report`
  returns `none` (Python `None`) or `some` of that pair, so "no artifact
  written" is visible as `none`.
-/

/-- One raw feed entry as seen by `entry.get(...)`: every field may be
missing, in which case the code substitutes `''`. -/
structure Entry where
  title : Option String
  link : Option String
  published : Option String
  summary : Option String
deriving DecidableEq, Repr

/-- A parsed feed: `feedparser.parse(url).entries`. -/
structure Feed where
  entries : List Entry
deriving DecidableEq, Repr

/-- The network/parse environment: what `feedparser.parse` returns for each
URL, or the exception it raises. -/
def FetchEnv : Type := String → Except String Feed

/-- The article dict built in `fetch_news_from_feed`. -/
structure Article where
  title : String
  link : String
  published : String
  summary : String
  source : String
deriving DecidableEq, Repr

/-- `self.feeds` from `BiotechNewsAgent.__init__`. -/
def feeds : List (String × String) :=
  [("FierceBiotech", "https://www.fiercebiotech.com/rss/xml"),
   ("BioPharma Dive", "https://www.biopharmadive.com/feeds/news/"),
   ("GEN News", "https://www.genengnews.com/feed/"),
   ("BioSpace", "https://www.biospace.com/feed/")]

/-- `self.keywords` from `BiotechNewsAgent.__init__`, in dict insertion
order. -/
def keywords : List (String × List String) :=
  [("revenue", ["revenue", "earnings", "quarterly results", "q1", "q2", "q3", "q4",
                "sales", "financial results", "profit"]),
   ("acquisition", ["acquisition", "merger", "acquire", "acquired", "deal", "bought",
                    "takeover", "m&a", "purchase"]),
   ("funding", ["funding", "raised", "series a", "series b", "series c", "investment",
                "investors", "venture capital", "ipo", "financing"]),
   ("new_company", ["launched", "founded", "new company", "startup", "spin-off",
                    "spinout", "established", "announces formation"])]

/-- Python `s.lower()` (character-wise case folding). -/
def pyLower (s : String) : String := ⟨s.data.map Char.toLower⟩

/-- Substring test on character lists: does `needle` occur contiguously in
the haystack? -/
def containsAux (needle : List Char) : List Char → Bool
  | [] => needle.isEmpty
  | c :: cs => needle.isPrefixOf (c :: cs) || containsAux needle cs

/-- Python `needle in hay` on strings: substring containment. -/
def pyContains (hay needle : String) : Bool := containsAux needle.data hay.data

/-- Python `s[:n]`. -/
def pySlice (s : String) (n : Nat) : String := ⟨s.data.take n⟩

/-- Case-insensitive substring occurrence: `needle` occurs in `hay` after
case folding both sides.  Used to state the classifier claim. -/
def occursCI (needle hay : String) : Bool :=
  pyContains (pyLower hay) (pyLower needle)

/-- `BiotechNewsAgent.categorize_article`: lowercase title+summary, then for
each category of the keyword table append it when any keyword is a
substring. -/
def categorize_article (a : Article) : List String :=
  let text := pyLower (a.title ++ " " ++ a.summary)
  keywords.foldl
    (fun categories p =>
      if p.2.any (fun keyword => pyContains text keyword) then categories ++ [p.1]
      else categories)
    []

/-- Helper for `pySplit`: scan the characters, accumulating the current
word (reversed) and emitting it at each whitespace run boundary. -/
def wordsAux : List Char → List Char → List (List Char)
  | [], cur => if cur.isEmpty then [] else [cur.reverse]
  | c :: cs, cur =>
    if c.isWhitespace then
      if cur.isEmpty then wordsAux cs [] else cur.reverse :: wordsAux cs []
    else wordsAux cs (c :: cur)

/-- Python `text.split()` (no argument): split on runs of whitespace,
discarding empty tokens. -/
def pySplit (s : String) : List String :=
  (wordsAux s.data []).map fun l => ⟨l⟩

/-- `word[0].isupper()`, modelled totally: the `none` branch (empty word)
never occurs for `pySplit` tokens (proved below). -/
def firstCharUpper (w : String) : Bool :=
  match w.data.head? with
  | some c => c.isUpper
  | none => false

/-- The accumulation test of `extract_company_name`:
`word[0].isupper() and len(word) > 2`. -/
def companyTest (w : String) : Bool :=
  firstCharUpper w && decide (2 < w.data.length)

/-- The `for word in words[:5]: ... else: break` loop body: accumulate while
the test holds, stop at the first failure. -/
def companyLoop : List String → List String
  | [] => []
  | w :: ws => if companyTest w then w :: companyLoop ws else []

/-- Python `sep.join(l)`. -/
def pyJoin (sep : String) : List String → String
  | [] => ""
  | [w] => w
  | w :: ws => w ++ sep ++ pyJoin sep ws

/-- `BiotechNewsAgent.extract_company_name`. -/
def extract_company_name (text : String) : String :=
  let words := pySplit text
  let company_words := companyLoop (words.take 5)
  if company_words.isEmpty then "Unknown" else pyJoin " " company_words

/-- The per-article row dict built in `process_articles` (the
CategorizedRecord of the spec). -/
structure Record where
  Company : String
  Date : String
  Title : String
  Source : String
  URL : String
  Summary : String
deriving DecidableEq, Repr

/-- The row dict for one article: company heuristic, first 10 characters of
the published string (sentinel `"N/A"` when empty), and the summary capped
at 200 characters with an ellipsis appended when truncated. -/
def mkRecord (a : Article) : Record :=
  { Company := extract_company_name a.title
  , Date := if a.published = "" then "N/A" else pySlice a.published 10
  , Title := a.title
  , Source := a.source
  , URL := a.link
  , Summary :=
      if 200 < a.summary.data.length then pySlice a.summary 200 ++ "..."
      else a.summary }

/-- The `categorized` dict of `process_articles`: four fixed buckets, in
dict insertion order revenue, acquisitions, funding, new_companies. -/
structure Categorized where
  revenue : List Record
  acquisitions : List Record
  funding : List Record
  new_companies : List Record
deriving DecidableEq, Repr

/-- The initial `categorized` dict: four empty buckets. -/
def emptyCategorized : Categorized := ⟨[], [], [], []⟩

/-- `categorized_data.values()` in dict insertion order. -/
def Categorized.values (cd : Categorized) : List (List Record) :=
  [cd.revenue, cd.acquisitions, cd.funding, cd.new_companies]

/-- `categorized_data.items()` in dict insertion order. -/
def Categorized.items (cd : Categorized) : List (String × List Record) :=
  [("revenue", cd.revenue), ("acquisitions", cd.acquisitions),
   ("funding", cd.funding), ("new_companies", cd.new_companies)]

/-- The body of the `for article in articles` loop of `process_articles`:
categorize, build the row, and append it to every matched bucket. -/
def addArticle (cd : Categorized) (a : Article) : Categorized :=
  let categories := categorize_article a
  let data := mkRecord a
  let cd1 := if categories.contains "revenue"
    then { cd with revenue := cd.revenue ++ [data] } else cd
  let cd2 := if categories.contains "acquisition"
    then { cd1 with acquisitions := cd1.acquisitions ++ [data] } else cd1
  let cd3 := if categories.contains "funding"
    then { cd2 with funding := cd2.funding ++ [data] } else cd2
  if categories.contains "new_company"
    then { cd3 with new_companies := cd3.new_companies ++ [data] } else cd3

/-- `BiotechNewsAgent.process_articles` (the prints are side effects with no
bearing on the returned dict). -/
def process_articles (articles : List Article) : Categorized :=
  articles.foldl addArticle emptyCategorized

/-- How many of the four buckets an article is appended to. -/
def numMatchedBuckets (a : Article) : Nat :=
  (if (categorize_article a).contains "revenue" then 1 else 0) +
  (if (categorize_article a).contains "acquisition" then 1 else 0) +
  (if (categorize_article a).contains "funding" then 1 else 0) +
  (if (categorize_article a).contains "new_company" then 1 else 0)

/-- `sum(len(v) for v in categorized_data.values())`. -/
def totalLen (cd : Categorized) : Nat :=
  (cd.values.map List.length).sum

/-- The Summary sheet of `create_excel_report`, as (Category, Count) rows in
row order. -/
def summary_rows (cd : Categorized) : List (String × Nat) :=
  [("Revenue Reports", cd.revenue.length),
   ("Acquisitions", cd.acquisitions.length),
   ("Funding Rounds", cd.funding.length),
   ("New Companies", cd.new_companies.length),
   ("Total Articles", totalLen cd)]

/-- `category.replace('_', ' ')`. -/
def underscoreToSpace (s : String) : String :=
  ⟨s.data.map fun c => if c = '_' then ' ' else c⟩

/-- Helper for `pyTitle`: the flag records whether the previous character
was alphabetic. -/
def titleAux : Bool → List Char → List Char
  | _, [] => []
  | prevAlpha, c :: cs =>
    (if prevAlpha then c.toLower else c.toUpper) :: titleAux c.isAlpha cs

/-- Python `s.title()` (restricted to alphabetic casing, which covers the
four bucket names). -/
def pyTitle (s : String) : String := ⟨titleAux false s.data⟩

/-- One sheet of the Excel document. -/
inductive Sheet where
  | summary (rows : List (String × Nat))
  | records (rows : List Record)
  | metadata (rows : List (String × String))
deriving DecidableEq, Repr

/-- The Excel document: named sheets in the order they are written. -/
structure Excel where
  sheets : List (String × Sheet)
deriving DecidableEq, Repr

/-- The `datetime.now()` formattings used by the report writer:
`strftime` of the year-month, timestamp and period strings. -/
structure Clock where
  month_year : String
  timestamp : String
  period : String
deriving DecidableEq, Repr

/-- `BiotechNewsAgent.create_excel_report`: Summary sheet, one sheet per
non-empty bucket in dict order, Metadata sheet; returns the written
document together with its filename. -/
def create_excel_report (cd : Categorized) (clock : Clock) : Excel × String :=
  let filename := "Biotech_Pharma_Report_" ++ clock.month_year ++ ".xlsx"
  let categorySheets :=
    (cd.items.filter fun p => ¬ p.2.isEmpty).map
      fun p => (pyTitle (underscoreToSpace p.1), Sheet.records p.2)
  let metadataRows :=
    [("Report Generated", clock.timestamp),
     ("Report Period", clock.period),
     ("Sources Used", pyJoin ", " (feeds.map Prod.fst)),
     ("Agent Version", "1.0.0 (GitHub Actions)")]
  (⟨("Summary", Sheet.summary (summary_rows cd)) :: categorySheets
      ++ [("Metadata", Sheet.metadata metadataRows)]⟩,
   filename)

/-- One entry mapped to an article dict; missing fields default to `''`. -/
def entryToArticle (source_name : String) (e : Entry) : Article :=
  { title := e.title.getD ""
  , link := e.link.getD ""
  , published := e.published.getD ""
  , summary := e.summary.getD ""
  , source := source_name }

/-- `BiotechNewsAgent.fetch_news_from_feed`: compute the (unused) cutoff
date, parse the feed, keep the first 100 entries; any exception is caught
and the articles accumulated so far (none) are returned. -/
def fetch_news_from_feed (env : FetchEnv) (feed_url source_name : String)
    (now : Int) (days_back : Nat) : List Article :=
  let _cutoff_date : Int := now - (days_back : Int) * 86400
  match env feed_url with
  | Except.error _ => []
  | Except.ok feed => (feed.entries.take 100).map (entryToArticle source_name)

/-- `BiotechNewsAgent.fetch_all_news`: fetch every configured source in
order and concatenate. -/
def fetch_all_news (env : FetchEnv) (now : Int) (days_back : Nat) :
    List Article :=
  feeds.foldl
    (fun all_articles p =>
      all_articles ++ fetch_news_from_feed env p.2 p.1 now days_back)
    []

/-- `BiotechNewsAgent.run_monthly_report`: fetch, and if nothing was
collected return `none` (Python `None`, no file written); otherwise process
and write the report, returning the document and its filename. -/
def run_monthly_report (env : FetchEnv) (clock : Clock) (now : Int)
    (days_back : Nat) : Option (Excel × String) :=
  let articles := fetch_all_news env now days_back
  if articles.isEmpty then none
  else
    let categorized := process_articles articles
    some (create_excel_report categorized clock)

/-! ## Helper lemmas -/

/-- Every keyword in the table is already lowercase, so case folding fixes
it. -/
theorem keywords_lower_fixed : ∀ p ∈ keywords, ∀ k ∈ p.2, pyLower k = k := by
  decide

/-- The category-accumulating fold of `categorize_article` is the list of
first components of the matching table rows. -/
theorem foldl_categories_eq (text : String) :
    ∀ (l : List (String × List String)) (acc : List String),
      l.foldl
        (fun categories p =>
          if p.2.any (fun keyword => pyContains text keyword) then categories ++ [p.1]
          else categories) acc
      = acc ++ (l.filter fun p => p.2.any fun keyword => pyContains text keyword).map
          Prod.fst
  | [], acc => by simp
  | p :: ps, acc => by
    rw [List.foldl_cons, foldl_categories_eq text ps]
    cases h : p.2.any fun keyword => pyContains text keyword <;>
      simp [h, List.filter_cons, List.append_assoc]

/-- C1: a category is in the classifier's result iff one of its keywords
occurs case-insensitively as a substring of title ++ " " ++ summary; in
particular, when no keyword of any category matches, the result is empty. -/
theorem categorize_article_spec (a : Article) :
    (∀ c, c ∈ categorize_article a ↔
      ∃ kws, (c, kws) ∈ keywords ∧
        ∃ k ∈ kws, occursCI k (a.title ++ " " ++ a.summary) = true) ∧
    ((∀ p ∈ keywords, ∀ k ∈ p.2,
        occursCI k (a.title ++ " " ++ a.summary) = false) →
      categorize_article a = []) := by
  have main : ∀ c, c ∈ categorize_article a ↔
      ∃ kws, (c, kws) ∈ keywords ∧
        ∃ k ∈ kws, occursCI k (a.title ++ " " ++ a.summary) = true := by
    intro c
    unfold categorize_article
    rw [foldl_categories_eq]
    simp only [List.nil_append, List.mem_map, List.mem_filter]
    constructor
    · rintro ⟨⟨cat, kws⟩, ⟨hmem, hany⟩, rfl⟩
      rw [List.any_eq_true] at hany
      obtain ⟨k, hk, hc⟩ := hany
      refine ⟨kws, hmem, k, hk, ?_⟩
      unfold occursCI
      rw [keywords_lower_fixed _ hmem k hk]
      exact hc
    · rintro ⟨kws, hmem, k, hk, hocc⟩
      refine ⟨(c, kws), ⟨hmem, ?_⟩, rfl⟩
      rw [List.any_eq_true]
      refine ⟨k, hk, ?_⟩
      unfold occursCI at hocc
      rw [keywords_lower_fixed _ hmem k hk] at hocc
      exact hocc
  refine ⟨main, fun hnone => ?_⟩
  rw [List.eq_nil_iff_forall_not_mem]
  intro c hc
  obtain ⟨kws, hmem, k, hk, hocc⟩ := (main c).1 hc
  have hfalse := hnone (c, kws) hmem k hk
  rw [hfalse] at hocc
  exact Bool.false_ne_true hocc

/-- Witness for C1 at concrete articles. -/
theorem categorize_article_spec_witness :
    "revenue" ∈ categorize_article ⟨"Acme Q1 Results", "", "", "profit rose", "x"⟩ ∧
    categorize_article ⟨"hello", "", "", "world", "x"⟩ = [] :=
  ⟨((categorize_article_spec _).1 "revenue").2
      ⟨["revenue", "earnings", "quarterly results", "q1", "q2", "q3", "q4",
        "sales", "financial results", "profit"], by decide, "q1", by decide, by decide⟩,
   (categorize_article_spec _).2 (by decide)⟩

/-- Appending one article adds its number of matched buckets to the running
total of per-bucket counts. -/
theorem totalLen_addArticle (cd : Categorized) (a : Article) :
    totalLen (addArticle cd a) = totalLen cd + numMatchedBuckets a := by
  simp only [addArticle, totalLen, numMatchedBuckets, Categorized.values]
  split_ifs <;> simp <;> omega

/-- Running total of per-bucket counts over a fold of `addArticle`. -/
theorem totalLen_foldl (articles : List Article) :
    ∀ cd : Categorized,
      totalLen (articles.foldl addArticle cd) =
        totalLen cd + (articles.map numMatchedBuckets).sum := by
  induction articles with
  | nil => intro cd; simp
  | cons a as ih =>
    intro cd
    rw [List.foldl_cons, ih, totalLen_addArticle, List.map_cons, List.sum_cons]
    omega

/-- C2: the Summary sheet has exactly five rows in the fixed order, its
Total Articles count is the sum of the four per-category counts, and that
total counts each article once per matched category. -/
theorem summary_sheet_spec (articles : List Article) (clock : Clock) :
    (summary_rows (process_articles articles)).length = 5 ∧
    (summary_rows (process_articles articles)).map Prod.fst =
      ["Revenue Reports", "Acquisitions", "Funding Rounds", "New Companies",
       "Total Articles"] ∧
    (summary_rows (process_articles articles)).map Prod.snd =
      [(process_articles articles).revenue.length,
       (process_articles articles).acquisitions.length,
       (process_articles articles).funding.length,
       (process_articles articles).new_companies.length,
       (process_articles articles).revenue.length +
         (process_articles articles).acquisitions.length +
         (process_articles articles).funding.length +
         (process_articles articles).new_companies.length] ∧
    ((summary_rows (process_articles articles)).map Prod.snd).getLastD 0 =
      (articles.map numMatchedBuckets).sum ∧
    (create_excel_report (process_articles articles) clock).1.sheets.head? =
      some ("Summary", Sheet.summary (summary_rows (process_articles articles))) := by
  refine ⟨rfl, rfl, ?_, ?_, rfl⟩
  · simp [summary_rows, totalLen, Categorized.values]
    omega
  · have := totalLen_foldl articles emptyCategorized
    simp only [process_articles]
    simp [summary_rows, List.getLastD]
    simpa [totalLen, Categorized.values, emptyCategorized] using this

/-- The break-on-first-failure loop of `extract_company_name` is
`takeWhile`. -/
theorem companyLoop_eq_takeWhile :
    ∀ l : List String, companyLoop l = l.takeWhile companyTest
  | [] => rfl
  | w :: ws => by
    rw [companyLoop]
    cases h : companyTest w <;>
      simp [h, List.takeWhile_cons, companyLoop_eq_takeWhile ws]

/-- `String.intercalate.go` in terms of `pyJoin`. -/
theorem intercalate_go_eq (sep : String) :
    ∀ (as : List String) (acc : String),
      String.intercalate.go acc sep as = pyJoin sep (acc :: as)
  | [], acc => rfl
  | a :: as, acc => by
    rw [String.intercalate.go, intercalate_go_eq sep as]
    cases as with
    | nil => rfl
    | cons b t => simp [pyJoin, String.append_assoc]

/-- Python `' '.join` agrees with `String.intercalate`. -/
theorem pyJoin_eq_intercalate (sep : String) :
    ∀ l : List String, pyJoin sep l = String.intercalate sep l
  | [] => rfl
  | a :: as => by rw [String.intercalate, intercalate_go_eq]

/-- C3: the extractor accumulates, from at most the first 5
whitespace-separated tokens, the longest prefix of tokens whose first
character is uppercase and whose length exceeds 2 (a hard stop at the first
failure), joins them with single spaces, and returns "Unknown" when none
qualify. -/
theorem extract_company_name_spec (text : String) :
    extract_company_name text =
      (if ((pySplit text).take 5).takeWhile companyTest = [] then "Unknown"
       else String.intercalate " "
         (((pySplit text).take 5).takeWhile companyTest)) := by
  simp only [extract_company_name]
  rw [companyLoop_eq_takeWhile, pyJoin_eq_intercalate]
  simp [List.isEmpty_iff]

/-- C4 counterexample: the spec's first example output is wrong — all four
tokens of "Moderna Announces New Vaccine" pass the accumulation test, so
the extractor keeps "Vaccine" too. -/
theorem extract_company_name_moderna_counterexample :
    extract_company_name "Moderna Announces New Vaccine" ≠
      "Moderna Announces New" := by decide

/-- C4 (amended): the extractor returns "Moderna Announces New Vaccine" on
the first example and "Unknown" on "A New Drug". -/
theorem extract_company_name_examples :
    extract_company_name "Moderna Announces New Vaccine" =
      "Moderna Announces New Vaccine" ∧
    extract_company_name "A New Drug" = "Unknown" := by
  exact ⟨by decide, by decide⟩

/-- C5: the days_back parameter is dead — fetching, aggregating and the
whole run give identical results for any two values of it. -/
theorem days_back_unused (env : FetchEnv) (clock : Clock) (now : Int)
    (feed_url source_name : String) (d1 d2 : Nat) :
    fetch_news_from_feed env feed_url source_name now d1 =
      fetch_news_from_feed env feed_url source_name now d2 ∧
    fetch_all_news env now d1 = fetch_all_news env now d2 ∧
    run_monthly_report env clock now d1 = run_monthly_report env clock now d2 :=
  ⟨rfl, rfl, rfl⟩

/-- C6: when retrieving or parsing a feed raises, the fetcher catches it and
returns the empty article list instead of propagating. -/
theorem fetch_failure_yields_empty (env : FetchEnv)
    (feed_url source_name : String) (now : Int) (days_back : Nat) (e : String)
    (h : env feed_url = Except.error e) :
    fetch_news_from_feed env feed_url source_name now days_back = [] := by
  simp [fetch_news_from_feed, h]

/-- An environment in which every fetch raises. -/
def envFail : FetchEnv := fun _ => Except.error "network error"

/-- Witness for C6: a concrete failing environment yields no articles. -/
theorem fetch_failure_yields_empty_witness :
    fetch_news_from_feed envFail "https://www.fiercebiotech.com/rss/xml"
      "FierceBiotech" 0 30 = [] :=
  fetch_failure_yields_empty envFail "https://www.fiercebiotech.com/rss/xml"
    "FierceBiotech" 0 30 "network error" rfl

/-- C7: the run returns `none` (no report written) exactly when the combined
fetched article set is empty; otherwise it processes, writes and returns the
report with its path. -/
theorem run_monthly_report_spec (env : FetchEnv) (clock : Clock) (now : Int)
    (days_back : Nat) :
    (run_monthly_report env clock now days_back = none ↔
      fetch_all_news env now days_back = []) ∧
    (fetch_all_news env now days_back ≠ [] →
      run_monthly_report env clock now days_back =
        some (create_excel_report
          (process_articles (fetch_all_news env now days_back)) clock)) := by
  simp only [run_monthly_report]
  rcases h : fetch_all_news env now days_back with _ | ⟨a, as⟩ <;> simp [h]

/-- An environment in which every feed parses to one revenue-flavoured
entry. -/
def envOkOne : FetchEnv := fun _ =>
  Except.ok ⟨[⟨some "Acme Corp Q1 earnings", none, none, none⟩]⟩

/-- Witness for C7: a failing environment produces no report, a non-empty
one produces the report and its path. -/
theorem run_monthly_report_spec_witness :
    run_monthly_report envFail ⟨"2025-03", "ts", "March 2025"⟩ 0 30 = none ∧
    run_monthly_report envOkOne ⟨"2025-03", "ts", "March 2025"⟩ 0 30 =
      some (create_excel_report (process_articles (fetch_all_news envOkOne 0 30))
        ⟨"2025-03", "ts", "March 2025"⟩) :=
  ⟨(run_monthly_report_spec envFail ⟨"2025-03", "ts", "March 2025"⟩ 0 30).1.mpr
      (by decide),
   (run_monthly_report_spec envOkOne ⟨"2025-03", "ts", "March 2025"⟩ 0 30).2
      (by decide)⟩

/-- C8: the record's truncated summary is unchanged at 200 characters or
fewer and is the first 200 characters plus "..." beyond that; the date is
the first 10 characters of published, or "N/A" when published is empty. -/
theorem mkRecord_spec (a : Article) :
    (a.summary.data.length ≤ 200 → (mkRecord a).Summary = a.summary) ∧
    (200 < a.summary.data.length →
      (mkRecord a).Summary = pySlice a.summary 200 ++ "...") ∧
    (a.published = "" → (mkRecord a).Date = "N/A") ∧
    (a.published ≠ "" → (mkRecord a).Date = pySlice a.published 10) := by
  refine ⟨fun h => ?_, fun h => ?_, fun h => ?_, fun h => ?_⟩ <;>
    simp only [mkRecord] <;> first
  | rw [if_neg (by omega)]
  | rw [if_pos h]
  | rw [if_pos (by omega)]
  | rw [if_neg h]

/-- A 201-character summary. -/
def longSummary : String := ⟨List.replicate 201 'a'⟩

/-- A 200-character summary. -/
def exact200 : String := ⟨List.replicate 200 'a'⟩

set_option maxRecDepth 10000 in
/-- Witness for C8 at concrete articles: truncation beyond 200, exact 200
unchanged, and both date cases. -/
theorem mkRecord_spec_witness :
    (mkRecord ⟨"T", "L", "", longSummary, "S"⟩).Summary =
      pySlice longSummary 200 ++ "..." ∧
    (mkRecord ⟨"T", "L", "", longSummary, "S"⟩).Date = "N/A" ∧
    (mkRecord ⟨"T", "L", "2024-01-02T03:04:05", exact200, "S"⟩).Summary =
      exact200 ∧
    (mkRecord ⟨"T", "L", "2024-01-02T03:04:05", exact200, "S"⟩).Date =
      pySlice "2024-01-02T03:04:05" 10 :=
  ⟨(mkRecord_spec _).2.1 (by decide),
   (mkRecord_spec _).2.2.1 rfl,
   (mkRecord_spec _).1 (by decide),
   (mkRecord_spec _).2.2.2 (by decide)⟩

/-- C9: on a successful parse the fetcher returns exactly the first
(at most 100) entries in feed order, each mapped field-by-field with empty
defaults; positions at or past 100 are never returned. -/
theorem fetch_success_spec (env : FetchEnv) (feed_url source_name : String)
    (now : Int) (days_back : Nat) (feed : Feed)
    (h : env feed_url = Except.ok feed) :
    (fetch_news_from_feed env feed_url source_name now days_back).length =
      min feed.entries.length 100 ∧
    (∀ i e, i < 100 → feed.entries[i]? = some e →
      (fetch_news_from_feed env feed_url source_name now days_back)[i]? =
        some { title := e.title.getD "", link := e.link.getD "",
               published := e.published.getD "", summary := e.summary.getD "",
               source := source_name }) ∧
    (∀ i, 100 ≤ i →
      (fetch_news_from_feed env feed_url source_name now days_back)[i]? =
        none) := by
  simp only [fetch_news_from_feed, h]
  refine ⟨?_, ?_, ?_⟩
  · rw [List.length_map, List.length_take, Nat.min_comm]
  · intro i e hi he
    rw [List.getElem?_map, List.getElem?_take, if_pos hi, he]
    rfl
  · intro i hi
    apply List.getElem?_eq_none
    rw [List.length_map, List.length_take]
    omega

/-- A feed with two entries, the second missing every field. -/
def feedTwo : Feed :=
  ⟨[⟨some "Acme Corp Q1", some "http://a", some "2024-01-02", some "profit rose"⟩,
    ⟨none, none, none, none⟩]⟩

/-- An environment in which every feed parses to `feedTwo`. -/
def envTwo : FetchEnv := fun _ => Except.ok feedTwo

/-- Witness for C9 on a concrete two-entry feed. -/
theorem fetch_success_spec_witness :
    (fetch_news_from_feed envTwo "u" "Src" 0 30).length =
      min feedTwo.entries.length 100 ∧
    (fetch_news_from_feed envTwo "u" "Src" 0 30)[1]? =
      some ⟨"", "", "", "", "Src"⟩ ∧
    (fetch_news_from_feed envTwo "u" "Src" 0 30)[100]? = none :=
  ⟨(fetch_success_spec envTwo "u" "Src" 0 30 feedTwo rfl).1,
   (fetch_success_spec envTwo "u" "Src" 0 30 feedTwo rfl).2.1 1
      ⟨none, none, none, none⟩ (by decide) (by decide),
   (fetch_success_spec envTwo "u" "Src" 0 30 feedTwo rfl).2.2 100 (by decide)⟩

/-- The whitespace splitter never emits an empty token. -/
theorem wordsAux_ne_nil : ∀ (cs cur : List Char), [] ∉ wordsAux cs cur := by
  intro cs
  induction cs with
  | nil =>
    intro cur
    cases cur <;> simp [wordsAux]
  | cons c cs ih =>
    intro cur
    rw [wordsAux]
    by_cases hw : c.isWhitespace = true
    · rw [if_pos hw]
      by_cases hc : cur.isEmpty = true
      · rw [if_pos hc]
        exact ih []
      · rw [if_neg hc]
        intro hmem
        rcases List.mem_cons.mp hmem with h1 | h2
        · have : cur = [] := by
            have := h1.symm
            rwa [List.reverse_eq_nil_iff] at this
          rw [this] at hc
          exact hc rfl
        · exact ih [] h2
    · rw [if_neg hw]
      exact ih (c :: cur)

/-- C10: the extractor is total on every string — whitespace splitting only
yields non-empty tokens (so `word[0]` is always in bounds), and when no
token exists the sentinel "Unknown" is returned. -/
theorem extract_company_name_total (s : String) :
    (∀ w ∈ pySplit s, 0 < w.data.length) ∧
    (pySplit s = [] → extract_company_name s = "Unknown") := by
  constructor
  · intro w hw
    obtain ⟨l, hl, rfl⟩ := List.mem_map.mp hw
    cases l with
    | nil => exact absurd hl (wordsAux_ne_nil s.data [])
    | cons c cs => simp [String.length]
  · intro h
    simp [extract_company_name, h, companyLoop]

/-- Witness for C10: a real token of a real split, and the whitespace-only
input. -/
theorem extract_company_name_total_witness :
    0 < ("Hi" : String).data.length ∧ extract_company_name "   " = "Unknown" :=
  ⟨(extract_company_name_total "Hi there").1 "Hi" (by decide),
   (extract_company_name_total "   ").2 (by decide)⟩
